import Mathlib

/-!
Shallow embedding of the CAD B-rep kernel:
entity store (`ModelManager`), geometric algorithms (`GeometryAlgorithm`)
and topology validation (`TopologyChecker`).

Modelling conventions:
* C++ `double` is modelled as `ℚ`; `std::sqrt`, `std::cos`, `std::sin` are
  taken as explicit function parameters `(ℚ → ℚ)` of the definitions that
  use them, so every statement is either proved for all such functions or
  instantiated at a concrete one.
* `std::unordered_map<int, shared_ptr<T>>` is modelled as an association
  list `List (Int × T)` queried with `mapFind`; the `std::vector` of
  insertion-ordered entities is a `List T` appended at the end.
* `shared_ptr<T>` results (with `nullptr` as the not-found sentinel) are
  modelled as `Option T`.
-/

/-- Vertex: `struct Point3D { int id; double x, y, z; }`. -/
structure Point3D where
  id : Int
  x : ℚ
  y : ℚ
  z : ℚ
deriving DecidableEq, Repr

instance : Inhabited Point3D := ⟨⟨0, 0, 0, 0⟩⟩

/-- Edge: `struct Edge { int start_id; int end_id; }`. -/
structure Edge where
  start_id : Int
  end_id : Int
deriving DecidableEq, Repr

/-- Face: `struct Face { std::vector<int> edge_ids; double normal[3]; }`;
the constructor zero-initialises `normal` and the store never mutates it. -/
structure Face where
  edge_ids : List Int
  normal : ℚ × ℚ × ℚ
deriving DecidableEq, Repr

/-- Lookup in an association list, modelling `unordered_map::find`. -/
def mapFind {α : Type} (l : List (Int × α)) (id : Int) : Option α :=
  match l with
  | [] => none
  | (k, v) :: t => if id = k then some v else mapFind t id

/-- The entity store (`class ModelManager`): three id→entity maps plus the
three insertion-ordered vectors mirroring them. -/
structure ModelManager where
  vertex_map : List (Int × Point3D)
  edge_map : List (Int × Edge)
  face_map : List (Int × Face)
  vertices : List Point3D
  edges : List Edge
  faces : List Face
deriving DecidableEq, Repr

namespace ModelManager

/-- A freshly constructed `ModelManager` (the constructor does nothing). -/
def empty : ModelManager := ⟨[], [], [], [], [], []⟩

/-- `ModelManager::getVertex`. -/
def getVertex (m : ModelManager) (id : Int) : Option Point3D :=
  mapFind m.vertex_map id

/-- `ModelManager::getEdge`. -/
def getEdge (m : ModelManager) (id : Int) : Option Edge :=
  mapFind m.edge_map id

/-- `ModelManager::getFace`. -/
def getFace (m : ModelManager) (id : Int) : Option Face :=
  mapFind m.face_map id

/-- `ModelManager::addVertex`: if the id is already present return the
existing vertex, otherwise create a `Point3D(id,x,y,z)` and record it. -/
def addVertex (m : ModelManager) (id : Int) (x y z : ℚ) : ModelManager × Option Point3D :=
  match mapFind m.vertex_map id with
  | some v => (m, some v)
  | none =>
    let v : Point3D := ⟨id, x, y, z⟩
    ({ m with vertex_map := (id, v) :: m.vertex_map, vertices := m.vertices ++ [v] }, some v)

/-- `ModelManager::addEdge`: existing id returns the existing edge; a missing
endpoint vertex refuses creation and returns the not-found sentinel. -/
def addEdge (m : ModelManager) (id start_id end_id : Int) : ModelManager × Option Edge :=
  match mapFind m.edge_map id with
  | some e => (m, some e)
  | none =>
    if (m.getVertex start_id).isNone || (m.getVertex end_id).isNone then
      (m, none)
    else
      let e : Edge := ⟨start_id, end_id⟩
      ({ m with edge_map := (id, e) :: m.edge_map, edges := m.edges ++ [e] }, some e)

/-- `ModelManager::addFace`: existing id returns the existing face; any
missing referenced edge refuses creation and returns the sentinel. -/
def addFace (m : ModelManager) (id : Int) (edge_ids : List Int) : ModelManager × Option Face :=
  match mapFind m.face_map id with
  | some f => (m, some f)
  | none =>
    if edge_ids.all (fun eid => (m.getEdge eid).isSome) then
      let f : Face := ⟨edge_ids, (0, 0, 0)⟩
      ({ m with face_map := (id, f) :: m.face_map, faces := m.faces ++ [f] }, some f)
    else
      (m, none)

/-- `ModelManager::reserveVertices`: capacity hint only, no observable effect. -/
def reserveVertices (m : ModelManager) (_size : Nat) : ModelManager := m

/-- `ModelManager::reserveEdges`: capacity hint only, no observable effect. -/
def reserveEdges (m : ModelManager) (_size : Nat) : ModelManager := m

/-- `ModelManager::reserveFaces`: capacity hint only, no observable effect. -/
def reserveFaces (m : ModelManager) (_size : Nat) : ModelManager := m

end ModelManager

namespace GeometryAlgorithm

/-- `GeometryAlgorithm::rotateZ`, with `std::cos`/`std::sin` passed in as
`cosF`/`sinF`: planar rotation of (x, y) about the Z axis, z and id kept. -/
def rotateZ (cosF sinF : ℚ → ℚ) (point : Point3D) (angle : ℚ) : Point3D :=
  let cos_theta := cosF angle
  let sin_theta := sinF angle
  ⟨point.id, point.x * cos_theta - point.y * sin_theta,
   point.x * sin_theta + point.y * cos_theta, point.z⟩

/-- `GeometryAlgorithm::calculateFaceNormal`, with `std::sqrt` passed in as
`sqrtF`.  The returned triple is the content of the function's static
`double normal[3]` buffer after the call. -/
def calculateFaceNormal (sqrtF : ℚ → ℚ) (face : Face) (m : ModelManager) : ℚ × ℚ × ℚ :=
  if face.edge_ids.length < 3 then
    (0, 0, 1)
  else
    match m.getEdge (face.edge_ids.getD 0 0), m.getEdge (face.edge_ids.getD 1 0) with
    | some edge1, some edge2 =>
      match m.getVertex edge1.start_id, m.getVertex edge1.end_id, m.getVertex edge2.end_id with
      | some v1, some v2, some v3 =>
        let ux := v2.x - v1.x
        let uy := v2.y - v1.y
        let uz := v2.z - v1.z
        let wx := v3.x - v1.x
        let wy := v3.y - v1.y
        let wz := v3.z - v1.z
        let nx := uy * wz - uz * wy
        let ny := uz * wx - ux * wz
        let nz := ux * wy - uy * wx
        let length := sqrtF (nx * nx + ny * ny + nz * nz)
        if 1 / 1000000 < length then
          (nx / length, ny / length, nz / length)
        else
          (nx, ny, nz)
      | _, _, _ => (0, 0, 1)
    | _, _ => (0, 0, 1)

/-- `GeometryAlgorithm::extrude`: synthesize the extruded topology into the
store; ids for vertices, edges and faces are each assigned from 1. -/
def extrude (m : ModelManager) (profile_vertices : List Point3D) (distance : ℚ) :
    ModelManager × Bool :=
  if profile_vertices.isEmpty then
    (m, false)
  else
    let n : Nat := profile_vertices.length
    let m0 := ((m.reserveVertices (n * 2)).reserveEdges (n * 4)).reserveFaces (n + 2)
    let m1 := (List.range n).foldl (fun acc (i : Nat) =>
      let v := profile_vertices.getD i default
      (acc.addVertex (1 + (i : Int)) v.x v.y v.z).1) m0
    let m2 := (List.range n).foldl (fun acc (i : Nat) =>
      let v := profile_vertices.getD i default
      (acc.addVertex (1 + (n : Int) + (i : Int)) v.x v.y (v.z + distance)).1) m1
    let m3 := (List.range n).foldl (fun acc (i : Nat) =>
      let next : Nat := (i + 1) % n
      (acc.addEdge (1 + (i : Int)) (1 + (i : Int)) (1 + (next : Int))).1) m2
    let m4 := (List.range n).foldl (fun acc (i : Nat) =>
      let next : Nat := (i + 1) % n
      (acc.addEdge (1 + (n : Int) + (i : Int)) (1 + (n : Int) + (i : Int))
        (1 + (n : Int) + (next : Int))).1) m3
    let m5 := (List.range n).foldl (fun acc (i : Nat) =>
      (acc.addEdge (1 + (2 * n : Int) + (i : Int)) (1 + (i : Int))
        (1 + (n : Int) + (i : Int))).1) m4
    let base_edges : List Int := (List.range n).map (fun (i : Nat) => (i : Int) + 1)
    let m6 := (m5.addFace 1 base_edges).1
    let top_edges : List Int := (List.range n).map (fun (i : Nat) => (n : Int) + (i : Int) + 1)
    let m7 := (m6.addFace 2 top_edges).1
    let m8 := (List.range n).foldl (fun acc (i : Nat) =>
      let next : Nat := (i + 1) % n
      let side_edges : List Int :=
        [(2 * n : Int) + 1 + (i : Int),
         (n : Int) + 1 + (next : Int),
         (2 * n : Int) + 1 + (next : Int),
         (i : Int) + 1]
      (acc.addFace (3 + (i : Int)) side_edges).1) m7
    (m8, true)

/-- `GeometryAlgorithm::revolve`, with `std::cos`/`std::sin` passed in:
the `axis_point` and `axis_direction` parameters are accepted but unused
(the C++ comments their names out); rotation is about the Z axis in
exactly 4 steps. -/
def revolve (cosF sinF : ℚ → ℚ) (m : ModelManager) (profile_vertices : List Point3D)
    (_axis_point : Point3D) (_axis_direction : ℚ × ℚ × ℚ) (angle : ℚ) :
    ModelManager × Bool :=
  if profile_vertices.isEmpty then
    (m, false)
  else
    let steps : Nat := 4
    let step_angle : ℚ := angle / (steps : ℚ)
    let n : Nat := profile_vertices.length
    let m0 := ((m.reserveVertices (n * (steps + 1))).reserveEdges
      (n * (steps * 2 + 1))).reserveFaces (n * steps + 2)
    let m1 := (List.range (steps + 1)).foldl (fun acc (step : Nat) =>
      let current_angle := step_angle * (step : ℚ)
      (List.range n).foldl (fun acc2 (i : Nat) =>
        let v := profile_vertices.getD i default
        let rotated := rotateZ cosF sinF v current_angle
        (acc2.addVertex (1 + (step : Int) * (n : Int) + (i : Int))
          rotated.x rotated.y rotated.z).1) acc) m0
    let m2 := (List.range (steps + 1)).foldl (fun acc (step : Nat) =>
      (List.range n).foldl (fun acc2 (i : Nat) =>
        let next : Nat := (i + 1) % n
        (acc2.addEdge (1 + (step : Int) * (n : Int) + (i : Int))
          (1 + (step : Int) * (n : Int) + (i : Int))
          (1 + (step : Int) * (n : Int) + (next : Int))).1) acc) m1
    let m3 := (List.range n).foldl (fun acc (i : Nat) =>
      (List.range steps).foldl (fun acc2 (step : Nat) =>
        (acc2.addEdge (1 + (5 * n : Int) + (i : Int) * (steps : Int) + (step : Int))
          (1 + (step : Int) * (n : Int) + (i : Int))
          (1 + ((step : Int) + 1) * (n : Int) + (i : Int))).1) acc) m2
    let end_edges : List Int := (List.range n).map (fun (i : Nat) => (i : Int) + 1)
    let m4 := (m3.addFace 1 end_edges).1
    let m5 := (List.range steps).foldl (fun acc (step : Nat) =>
      (List.range n).foldl (fun acc2 (i : Nat) =>
        let next : Nat := (i + 1) % n
        let base : Int := (step : Int) * (n : Int) + 1
        let next_base : Int := ((step : Int) + 1) * (n : Int) + 1
        let side_edges : List Int :=
          [base + (i : Int), base + (next : Int),
           next_base + (next : Int), next_base + (i : Int)]
        (acc2.addFace (2 + (step : Int) * (n : Int) + (i : Int)) side_edges).1) acc) m4
    (m5, true)

end GeometryAlgorithm

namespace TopologyChecker

/-- The signature string built for an edge by `detectDuplicateEdges`:
`to_string(min) + "-" + to_string(max)`. -/
def edgeSignature (e : Edge) : String :=
  toString (min e.start_id e.end_id) ++ "-" ++ toString (max e.start_id e.end_id)

/-- `TopologyChecker::detectDuplicateEdges`: iterate the edge vector; when an
unordered-endpoint signature repeats, record the current edge's start vertex
id (the code's comment itself notes it "should use the edge's ID"). -/
def detectDuplicateEdges (m : ModelManager) : List Int :=
  (m.edges.foldl (fun (acc : List Int × List String) edge =>
    let signature := edgeSignature edge
    if signature ∈ acc.2 then
      (acc.1 ++ [edge.start_id], acc.2)
    else
      (acc.1, signature :: acc.2)) ([], [])).1

/-- `TopologyChecker::detectNormalInconsistencies`.  In the C++ source
`ref_normal` is the pointer returned by `calculateFaceNormal`, which points
into that function's shared `static` buffer; every later call for the
current face overwrites the buffer, so the values read through `ref_normal`
in the loop body are the current face's own normal.  The embedding makes
that aliasing explicit: the dot product is the current normal with itself. -/
def detectNormalInconsistencies (sqrtF : ℚ → ℚ) (m : ModelManager) : List Int :=
  match m.faces with
  | [] => []
  | first_face :: rest =>
    if first_face.edge_ids.isEmpty then []
    else
      (rest.enum.foldl (fun (acc : List Int) p =>
        if p.2.edge_ids.isEmpty then acc
        else
          let cur := GeometryAlgorithm.calculateFaceNormal sqrtF p.2 m
          let dot_product := cur.1 * cur.1 + cur.2.1 * cur.2.1 + cur.2.2 * cur.2.2
          if dot_product < 0 then acc ++ [(p.1 : Int) + 2] else acc) [])

/-- The normal-inconsistency detector as the specification describes it:
the reference is the (value of the) first face's normal, and each
subsequent face with a non-empty edge list is flagged exactly when the dot
product of its own normal against that reference value is negative. -/
def detectNormalInconsistenciesAsSpecified (sqrtF : ℚ → ℚ) (m : ModelManager) : List Int :=
  match m.faces with
  | [] => []
  | first_face :: rest =>
    if first_face.edge_ids.isEmpty then []
    else
      let ref := GeometryAlgorithm.calculateFaceNormal sqrtF first_face m
      (rest.enum.foldl (fun (acc : List Int) p =>
        if p.2.edge_ids.isEmpty then acc
        else
          let cur := GeometryAlgorithm.calculateFaceNormal sqrtF p.2 m
          let dot_product := ref.1 * cur.1 + ref.2.1 * cur.2.1 + ref.2.2 * cur.2.2
          if dot_product < 0 then acc ++ [(p.1 : Int) + 2] else acc) [])

end TopologyChecker

/-- `calculateFaceNormal` as the specification describes it, stated
independently of the source's early-return sequencing: the default (0,0,1)
when the face has fewer than 3 referenced edges or when either of its first
two edges or the vertices v1 (first edge start), v2 (first edge end),
v3 (second edge end) cannot be resolved; otherwise the cross product of
(v2-v1) and (v3-v1), normalised when its length exceeds 1e-6 and returned
unnormalised otherwise. -/
def calculateFaceNormalAsSpecified (sqrtF : ℚ → ℚ) (face : Face) (m : ModelManager) :
    ℚ × ℚ × ℚ :=
  match m.getEdge (face.edge_ids.getD 0 0), m.getEdge (face.edge_ids.getD 1 0) with
  | some edge1, some edge2 =>
    match m.getVertex edge1.start_id, m.getVertex edge1.end_id, m.getVertex edge2.end_id with
    | some v1, some v2, some v3 =>
      if face.edge_ids.length < 3 then
        (0, 0, 1)
      else
        let cx := (v2.y - v1.y) * (v3.z - v1.z) - (v2.z - v1.z) * (v3.y - v1.y)
        let cy := (v2.z - v1.z) * (v3.x - v1.x) - (v2.x - v1.x) * (v3.z - v1.z)
        let cz := (v2.x - v1.x) * (v3.y - v1.y) - (v2.y - v1.y) * (v3.x - v1.x)
        let length := sqrtF (cx * cx + cy * cy + cz * cz)
        if 1 / 1000000 < length then (cx / length, cy / length, cz / length)
        else (cx, cy, cz)
    | _, _, _ => (0, 0, 1)
  | _, _ => (0, 0, 1)

/-- One call into the store's public mutation interface. -/
inductive StoreOp where
  | addV : Int → ℚ → ℚ → ℚ → StoreOp
  | addE : Int → Int → Int → StoreOp
  | addF : Int → List Int → StoreOp
  | resV : Nat → StoreOp
  | resE : Nat → StoreOp
  | resF : Nat → StoreOp
deriving DecidableEq, Repr

/-- Apply one store operation (the returned entity pointer is discarded). -/
def applyOp (m : ModelManager) : StoreOp → ModelManager
  | .addV id x y z => (m.addVertex id x y z).1
  | .addE id s e => (m.addEdge id s e).1
  | .addF id eids => (m.addFace id eids).1
  | .resV k => m.reserveVertices k
  | .resE k => m.reserveEdges k
  | .resF k => m.reserveFaces k

/-- Run a sequence of store operations from a given store. -/
def runOps (m : ModelManager) (ops : List StoreOp) : ModelManager :=
  ops.foldl applyOp m

/-- A store is reachable when some operation sequence builds it from a
fresh empty store. -/
def Reachable (m : ModelManager) : Prop :=
  ∃ ops : List StoreOp, runOps ModelManager.empty ops = m

/-- Referential integrity: every stored edge's endpoints resolve to vertices
in the store, and every stored face's edge ids resolve to edges. -/
def RefIntegrity (m : ModelManager) : Prop :=
  (∀ e ∈ m.edges, (m.getVertex e.start_id).isSome ∧ (m.getVertex e.end_id).isSome) ∧
  (∀ p ∈ m.edge_map, (m.getVertex p.2.start_id).isSome ∧ (m.getVertex p.2.end_id).isSome) ∧
  (∀ f ∈ m.faces, ∀ eid ∈ f.edge_ids, (m.getEdge eid).isSome) ∧
  (∀ p ∈ m.face_map, ∀ eid ∈ p.2.edge_ids, (m.getEdge eid).isSome)

/-- First-some choice on options, used to state lookup characterisations. -/
def ofind {α : Type} (o o' : Option α) : Option α :=
  match o with
  | some v => some v
  | none => o'

/-- Vertex built from one batched `addVertex` instruction (id, x, y, z). -/
def vEntry (p : Int × ℚ × ℚ × ℚ) : Point3D := ⟨p.1, p.2.1, p.2.2.1, p.2.2.2⟩

/-- Edge built from one batched `addEdge` instruction (id, start, end). -/
def eEntry (p : Int × Int × Int) : Edge := ⟨p.2.1, p.2.2⟩

/-- Face built from one batched `addFace` instruction (id, edge ids). -/
def fEntry (p : Int × List Int) : Face := ⟨p.2, (0, 0, 0)⟩

/-- Fold a list of `addVertex` instructions over a store. -/
def addVertexList (m : ModelManager) (l : List (Int × ℚ × ℚ × ℚ)) : ModelManager :=
  l.foldl (fun acc p => (acc.addVertex p.1 p.2.1 p.2.2.1 p.2.2.2).1) m

/-- Fold a list of `addEdge` instructions over a store. -/
def addEdgeList (m : ModelManager) (l : List (Int × Int × Int)) : ModelManager :=
  l.foldl (fun acc p => (acc.addEdge p.1 p.2.1 p.2.2).1) m

/-- Fold a list of `addFace` instructions over a store. -/
def addFaceList (m : ModelManager) (l : List (Int × List Int)) : ModelManager :=
  l.foldl (fun acc p => (acc.addFace p.1 p.2).1) m

/-- The `addVertex` instructions issued by `extrude` for the base ring. -/
def extrudeBaseVertexInstrs (profile_vertices : List Point3D) : List (Int × ℚ × ℚ × ℚ) :=
  (List.range profile_vertices.length).map (fun (i : Nat) =>
    let v := profile_vertices.getD i default
    (1 + (i : Int), v.x, v.y, v.z))

/-- The `addVertex` instructions issued by `extrude` for the top ring. -/
def extrudeTopVertexInstrs (profile_vertices : List Point3D) (distance : ℚ) :
    List (Int × ℚ × ℚ × ℚ) :=
  (List.range profile_vertices.length).map (fun (i : Nat) =>
    let v := profile_vertices.getD i default
    (1 + (profile_vertices.length : Int) + (i : Int), v.x, v.y, v.z + distance))

/-- The `addEdge` instructions issued by `extrude`: base ring, top ring and
vertical edges, in insertion order. -/
def extrudeEdgeInstrs (n : Nat) : List (Int × Int × Int) :=
  ((List.range n).map (fun (i : Nat) =>
    let next : Nat := (i + 1) % n
    (1 + (i : Int), 1 + (i : Int), 1 + (next : Int))) ++
   (List.range n).map (fun (i : Nat) =>
    let next : Nat := (i + 1) % n
    (1 + (n : Int) + (i : Int), 1 + (n : Int) + (i : Int), 1 + (n : Int) + (next : Int)))) ++
  (List.range n).map (fun (i : Nat) =>
    (1 + (2 * n : Int) + (i : Int), 1 + (i : Int), 1 + (n : Int) + (i : Int)))

/-- The `addFace` instructions issued by `extrude` for the side quads. -/
def extrudeSideFaceInstrs (n : Nat) : List (Int × List Int) :=
  (List.range n).map (fun (i : Nat) =>
    let next : Nat := (i + 1) % n
    (3 + (i : Int),
     [(2 * n : Int) + 1 + (i : Int), (n : Int) + 1 + (next : Int),
      (2 * n : Int) + 1 + (next : Int), (i : Int) + 1]))

/-- All `addFace` instructions issued by `extrude`: the bottom face (id 1,
base-ring edges), the top face (id 2, top-ring edges), then the side quads. -/
def extrudeFaceInstrs (n : Nat) : List (Int × List Int) :=
  (1, (List.range n).map (fun (i : Nat) => (i : Int) + 1)) ::
  (2, (List.range n).map (fun (i : Nat) => (n : Int) + (i : Int) + 1)) ::
  extrudeSideFaceInstrs n

/-- The `addVertex` instructions issued by `revolve` for ring `step`. -/
def revolveRingInstrs (cosF sinF : ℚ → ℚ) (profile_vertices : List Point3D) (step_angle : ℚ)
    (step : Nat) : List (Int × ℚ × ℚ × ℚ) :=
  (List.range profile_vertices.length).map (fun (i : Nat) =>
    let v := profile_vertices.getD i default
    let rotated := GeometryAlgorithm.rotateZ cosF sinF v (step_angle * (step : ℚ))
    (1 + (step : Int) * (profile_vertices.length : Int) + (i : Int),
     rotated.x, rotated.y, rotated.z))

/-- All `addVertex` instructions issued by `revolve`: the 5 rings in order. -/
def revolveVertexInstrs (cosF sinF : ℚ → ℚ) (profile_vertices : List Point3D)
    (step_angle : ℚ) : List (Int × ℚ × ℚ × ℚ) :=
  ((List.range (4 + 1)).map (revolveRingInstrs cosF sinF profile_vertices step_angle)).flatten

/-- The edge and face loops of `revolve`, applied after its vertex loop. -/
def revolveRestStages (profile_vertices : List Point3D) (m1 : ModelManager) : ModelManager :=
  let steps : Nat := 4
  let n : Nat := profile_vertices.length
  let m2 := (List.range (steps + 1)).foldl (fun acc (step : Nat) =>
    (List.range n).foldl (fun acc2 (i : Nat) =>
      let next : Nat := (i + 1) % n
      (acc2.addEdge (1 + (step : Int) * (n : Int) + (i : Int))
        (1 + (step : Int) * (n : Int) + (i : Int))
        (1 + (step : Int) * (n : Int) + (next : Int))).1) acc) m1
  let m3 := (List.range n).foldl (fun acc (i : Nat) =>
    (List.range steps).foldl (fun acc2 (step : Nat) =>
      (acc2.addEdge (1 + (5 * n : Int) + (i : Int) * (steps : Int) + (step : Int))
        (1 + (step : Int) * (n : Int) + (i : Int))
        (1 + ((step : Int) + 1) * (n : Int) + (i : Int))).1) acc) m2
  let end_edges : List Int := (List.range n).map (fun (i : Nat) => (i : Int) + 1)
  let m4 := (m3.addFace 1 end_edges).1
  let m5 := (List.range steps).foldl (fun acc (step : Nat) =>
    (List.range n).foldl (fun acc2 (i : Nat) =>
      let next : Nat := (i + 1) % n
      let base : Int := (step : Int) * (n : Int) + 1
      let next_base : Int := ((step : Int) + 1) * (n : Int) + 1
      let side_edges : List Int :=
        [base + (i : Int), base + (next : Int),
         next_base + (next : Int), next_base + (i : Int)]
      (acc2.addFace (2 + (step : Int) * (n : Int) + (i : Int)) side_edges).1) acc) m4
  m5

/-- Exact square root on the rationals used to instantiate the abstract
`sqrtF` at concrete inputs whose relevant arguments are perfect squares
(on those arguments it agrees with the real square root). -/
def ratSqrt (q : ℚ) : ℚ :=
  (Nat.sqrt q.num.toNat : ℚ) / (Nat.sqrt q.den : ℚ)

/-- A store that already contains edge id 5 joining vertices 1 and 2 (used to
probe `addEdge` on an existing edge id). -/
def storeWithEdge5 : ModelManager :=
  runOps ModelManager.empty
    [.addV 1 0 0 0, .addV 2 0 0 0, .addE 5 1 2]

/-- A store with two edges, inserted under ids 10 and 11, both joining
vertices 1 and 2 (in opposite orientations). -/
def storeTwoParallelEdges : ModelManager :=
  runOps ModelManager.empty
    [.addV 1 0 0 0, .addV 2 1 0 0, .addE 10 1 2, .addE 11 2 1]

/-- Operation sequence building a small store with one vertex pair, one edge
and one face, used to exhibit a reachable store. -/
def opsSmall : List StoreOp :=
  [.addV 1 0 0 0, .addV 2 1 0 0, .addE 1 1 2, .addF 1 [1], .resV 10]

/-- The store reached by `opsSmall`. -/
def storeSmall : ModelManager :=
  runOps ModelManager.empty opsSmall

/-- A store with two triangle faces of opposite orientation over the same
three vertices: face 1 has normal (0,0,1) and face 2 has normal (0,0,-1). -/
def storeOppositeFaces : ModelManager :=
  runOps ModelManager.empty
    [.addV 1 0 0 0, .addV 2 1 0 0, .addV 3 0 1 0,
     .addE 1 1 2, .addE 2 2 3, .addE 3 3 1,
     .addE 4 1 3, .addE 5 3 2, .addE 6 2 1,
     .addF 1 [1, 2, 3], .addF 2 [4, 5, 6]]

/-- The four corners of the unit square at z = 0, as a profile. -/
def squareProfile : List Point3D :=
  [⟨1, 0, 0, 0⟩, ⟨2, 1, 0, 0⟩, ⟨3, 1, 1, 0⟩, ⟨4, 0, 1, 0⟩]

section BasicLemmas

@[simp] theorem mapFind_nil {α : Type} (id : Int) :
    mapFind ([] : List (Int × α)) id = none := rfl

@[simp] theorem mapFind_cons {α : Type} (k : Int) (v : α) (t : List (Int × α)) (id : Int) :
    mapFind ((k, v) :: t) id = if id = k then some v else mapFind t id := rfl

theorem mapFind_eq_none_iff {α : Type} (l : List (Int × α)) (id : Int) :
    mapFind l id = none ↔ id ∉ l.map Prod.fst := by
  induction l with
  | nil => simp
  | cons p t ih =>
    obtain ⟨k, v⟩ := p
    by_cases h : id = k <;> simp [h, ih]

theorem mapFind_isSome_iff {α : Type} (l : List (Int × α)) (id : Int) :
    (mapFind l id).isSome = true ↔ id ∈ l.map Prod.fst := by
  rw [← not_iff_not, ← mapFind_eq_none_iff]
  cases mapFind l id <;> simp

end BasicLemmas

@[simp] theorem ofind_some {α : Type} (v : α) (o : Option α) : ofind (some v) o = some v := rfl

@[simp] theorem ofind_none {α : Type} (o : Option α) : ofind none o = o := rfl

theorem mem_range_map_add {a id : Int} {k : Nat} :
    id ∈ (List.range k).map (fun (i : Nat) => a + (i : Int)) ↔ a ≤ id ∧ id < a + k := by
  simp only [List.mem_map, List.mem_range]
  constructor
  · rintro ⟨i, hi, rfl⟩
    omega
  · intro h
    exact ⟨(id - a).toNat, by omega, by omega⟩

theorem mem_range_map_add' {a id : Int} {k : Nat} :
    id ∈ (List.range k).map (fun (i : Nat) => (i : Int) + a) ↔ a ≤ id ∧ id < a + k := by
  have h : (List.range k).map (fun (i : Nat) => (i : Int) + a) =
      (List.range k).map (fun (i : Nat) => a + (i : Int)) := by
    apply List.map_congr_left
    intro i _
    omega
  rw [h, mem_range_map_add]

theorem nodup_range_map_add {a : Int} {k : Nat} :
    ((List.range k).map (fun (i : Nat) => a + (i : Int))).Nodup := by
  apply List.Nodup.map
  · intro i j h
    have h2 : a + (i : Int) = a + (j : Int) := h
    omega
  · exact List.nodup_range k

theorem nodup_range_map_add' {a : Int} {k : Nat} :
    ((List.range k).map (fun (i : Nat) => (i : Int) + a)).Nodup := by
  apply List.Nodup.map
  · intro i j h
    have h2 : (i : Int) + a = (j : Int) + a := h
    omega
  · exact List.nodup_range k

/-- A lookup of an id that is not among the instruction ids finds nothing in
the mapped entry list. -/
theorem mapFind_entry_none {β γ : Type} (t : List (Int × β)) (f : Int × β → γ) (id : Int)
    (h : id ∉ t.map Prod.fst) :
    mapFind (t.map (fun p => (p.1, f p))) id = none := by
  induction t with
  | nil => rfl
  | cons q r ih =>
    have hne : id ≠ q.1 := by
      intro hcontra
      exact h (by simp [hcontra])
    simp only [List.map_cons, mapFind_cons, if_neg hne]
    exact ih (fun hm => h (List.mem_cons_of_mem _ hm))

namespace ModelManager

theorem addVertex_of_fresh (m : ModelManager) (id : Int) (x y z : ℚ)
    (h : mapFind m.vertex_map id = none) :
    m.addVertex id x y z =
      ({ m with vertex_map := (id, ⟨id, x, y, z⟩) :: m.vertex_map,
                vertices := m.vertices ++ [⟨id, x, y, z⟩] }, some ⟨id, x, y, z⟩) := by
  simp [addVertex, h]

theorem addVertex_of_present (m : ModelManager) (id : Int) (x y z : ℚ) (v : Point3D)
    (h : mapFind m.vertex_map id = some v) :
    m.addVertex id x y z = (m, some v) := by
  simp [addVertex, h]

theorem addEdge_of_success (m : ModelManager) (id s e : Int)
    (h : mapFind m.edge_map id = none)
    (hs : (m.getVertex s).isSome) (he : (m.getVertex e).isSome) :
    m.addEdge id s e =
      ({ m with edge_map := (id, ⟨s, e⟩) :: m.edge_map,
                edges := m.edges ++ [⟨s, e⟩] }, some ⟨s, e⟩) := by
  rw [addEdge, h]
  simp only []
  rw [if_neg]
  simp only [Bool.or_eq_true, not_or]
  cases hvs : m.getVertex s with
  | none => rw [hvs] at hs; simp at hs
  | some v1 =>
    cases hve : m.getVertex e with
    | none => rw [hve] at he; simp at he
    | some v2 => simp

theorem addFace_of_success (m : ModelManager) (id : Int) (eids : List Int)
    (h : mapFind m.face_map id = none)
    (he : eids.all (fun eid => (m.getEdge eid).isSome) = true) :
    m.addFace id eids =
      ({ m with face_map := (id, ⟨eids, (0, 0, 0)⟩) :: m.face_map,
                faces := m.faces ++ [⟨eids, (0, 0, 0)⟩] }, some ⟨eids, (0, 0, 0)⟩) := by
  simp [addFace, h, he]

/-- `addEdge` never modifies the vertex data or the face data. -/
theorem addEdge_preserves_others (m : ModelManager) (id s e : Int) :
    (m.addEdge id s e).1.vertex_map = m.vertex_map ∧
    (m.addEdge id s e).1.vertices = m.vertices ∧
    (m.addEdge id s e).1.face_map = m.face_map ∧
    (m.addEdge id s e).1.faces = m.faces := by
  rw [addEdge]
  cases mapFind m.edge_map id with
  | some v => exact ⟨rfl, rfl, rfl, rfl⟩
  | none =>
    by_cases hc : ((m.getVertex s).isNone || (m.getVertex e).isNone : Bool) = true
    · simp [hc]
    · simp [hc]

/-- `addFace` never modifies the vertex data or the edge data. -/
theorem addFace_preserves_others (m : ModelManager) (id : Int) (eids : List Int) :
    (m.addFace id eids).1.vertex_map = m.vertex_map ∧
    (m.addFace id eids).1.vertices = m.vertices ∧
    (m.addFace id eids).1.edge_map = m.edge_map ∧
    (m.addFace id eids).1.edges = m.edges := by
  rw [addFace]
  cases mapFind m.face_map id with
  | some v => exact ⟨rfl, rfl, rfl, rfl⟩
  | none =>
    by_cases hc : (eids.all (fun eid => (m.getEdge eid).isSome)) = true
    · simp [hc]
    · simp [hc]

/-- `addVertex` never modifies the edge data or the face data. -/
theorem addVertex_preserves_others (m : ModelManager) (id : Int) (x y z : ℚ) :
    (m.addVertex id x y z).1.edge_map = m.edge_map ∧
    (m.addVertex id x y z).1.edges = m.edges ∧
    (m.addVertex id x y z).1.face_map = m.face_map ∧
    (m.addVertex id x y z).1.faces = m.faces := by
  rw [addVertex]
  cases mapFind m.vertex_map id with
  | some v => exact ⟨rfl, rfl, rfl, rfl⟩
  | none => exact ⟨rfl, rfl, rfl, rfl⟩

end ModelManager

/-- Effect of a batch of fresh-id `addVertex` calls: the new vertices are
appended in order, nothing else changes, and lookups see the batch first. -/
theorem addVertexList_spec (l : List (Int × ℚ × ℚ × ℚ)) (m : ModelManager)
    (hfresh : ∀ p ∈ l, mapFind m.vertex_map p.1 = none)
    (hnodup : (l.map Prod.fst).Nodup) :
    (addVertexList m l).vertices = m.vertices ++ l.map vEntry ∧
    (addVertexList m l).edges = m.edges ∧
    (addVertexList m l).faces = m.faces ∧
    (addVertexList m l).edge_map = m.edge_map ∧
    (addVertexList m l).face_map = m.face_map ∧
    (∀ id, mapFind (addVertexList m l).vertex_map id =
      ofind (mapFind (l.map (fun p => (p.1, vEntry p))) id) (mapFind m.vertex_map id)) := by
  induction l generalizing m with
  | nil => simp [addVertexList, ofind]
  | cons p t ih =>
    obtain ⟨pid, px, py, pz⟩ := p
    have hfresh0 : mapFind m.vertex_map pid = none := hfresh _ (List.mem_cons_self _ _)
    have hcons : (pid :: t.map Prod.fst).Nodup := hnodup
    have hpid_notin : pid ∉ t.map Prod.fst := (List.nodup_cons.mp hcons).1
    have h1 : (m.addVertex pid px py pz).1 =
        { m with vertex_map := (pid, ⟨pid, px, py, pz⟩) :: m.vertex_map,
                 vertices := m.vertices ++ [⟨pid, px, py, pz⟩] } := by
      rw [ModelManager.addVertex_of_fresh m pid px py pz hfresh0]
    have hunfold : addVertexList m ((pid, px, py, pz) :: t) =
        addVertexList (m.addVertex pid px py pz).1 t := rfl
    rw [hunfold, h1]
    have hfresh' : ∀ q ∈ t,
        mapFind ({ m with vertex_map := (pid, ⟨pid, px, py, pz⟩) :: m.vertex_map,
                          vertices := m.vertices ++ [⟨pid, px, py, pz⟩] } :
          ModelManager).vertex_map q.1 = none := by
      intro q hq
      have hne : q.1 ≠ pid := by
        intro hcontra
        exact hpid_notin (hcontra ▸ List.mem_map_of_mem Prod.fst hq)
      simp only [mapFind_cons, if_neg hne]
      exact hfresh q (List.mem_cons_of_mem _ hq)
    have hnodup' : (t.map Prod.fst).Nodup := (List.nodup_cons.mp hcons).2
    obtain ⟨hv, he, hf, hem, hfm, hlook⟩ := ih _ hfresh' hnodup'
    refine ⟨?_, by simpa using he, by simpa using hf, by simpa using hem, by simpa using hfm, ?_⟩
    · rw [hv]
      simp [vEntry, List.append_assoc]
    · intro id
      rw [hlook id]
      by_cases hid : id = pid
      · subst hid
        rw [mapFind_entry_none t vEntry _ hpid_notin]
        simp [vEntry]
      · simp [hid]

/-- Effect of a batch of fresh-id `addEdge` calls whose endpoints all exist:
the new edges are appended in order, nothing else changes, and edge lookups
see the batch first. -/
theorem addEdgeList_spec (l : List (Int × Int × Int)) (m : ModelManager)
    (hfresh : ∀ p ∈ l, mapFind m.edge_map p.1 = none)
    (hnodup : (l.map Prod.fst).Nodup)
    (hends : ∀ p ∈ l, (m.getVertex p.2.1).isSome ∧ (m.getVertex p.2.2).isSome) :
    (addEdgeList m l).edges = m.edges ++ l.map eEntry ∧
    (addEdgeList m l).vertices = m.vertices ∧
    (addEdgeList m l).faces = m.faces ∧
    (addEdgeList m l).vertex_map = m.vertex_map ∧
    (addEdgeList m l).face_map = m.face_map ∧
    (∀ id, mapFind (addEdgeList m l).edge_map id =
      ofind (mapFind (l.map (fun p => (p.1, eEntry p))) id) (mapFind m.edge_map id)) := by
  induction l generalizing m with
  | nil => simp [addEdgeList, ofind]
  | cons p t ih =>
    obtain ⟨pid, ps, pe⟩ := p
    have hfresh0 : mapFind m.edge_map pid = none := hfresh _ (List.mem_cons_self _ _)
    have hends0 := hends _ (List.mem_cons_self _ _)
    have hcons : (pid :: t.map Prod.fst).Nodup := hnodup
    have hpid_notin : pid ∉ t.map Prod.fst := (List.nodup_cons.mp hcons).1
    have h1 : (m.addEdge pid ps pe).1 =
        { m with edge_map := (pid, ⟨ps, pe⟩) :: m.edge_map,
                 edges := m.edges ++ [⟨ps, pe⟩] } := by
      rw [ModelManager.addEdge_of_success m pid ps pe hfresh0 hends0.1 hends0.2]
    have hunfold : addEdgeList m ((pid, ps, pe) :: t) =
        addEdgeList (m.addEdge pid ps pe).1 t := rfl
    rw [hunfold, h1]
    have hfresh' : ∀ q ∈ t,
        mapFind ({ m with edge_map := (pid, ⟨ps, pe⟩) :: m.edge_map,
                          edges := m.edges ++ [⟨ps, pe⟩] } : ModelManager).edge_map q.1 =
          none := by
      intro q hq
      have hne : q.1 ≠ pid := by
        intro hcontra
        exact hpid_notin (hcontra ▸ List.mem_map_of_mem Prod.fst hq)
      simp only [mapFind_cons, if_neg hne]
      exact hfresh q (List.mem_cons_of_mem _ hq)
    have hnodup' : (t.map Prod.fst).Nodup := (List.nodup_cons.mp hcons).2
    have hends' : ∀ q ∈ t,
        ((({ m with edge_map := (pid, ⟨ps, pe⟩) :: m.edge_map,
                    edges := m.edges ++ [⟨ps, pe⟩] } : ModelManager)).getVertex q.2.1).isSome ∧
        ((({ m with edge_map := (pid, ⟨ps, pe⟩) :: m.edge_map,
                    edges := m.edges ++ [⟨ps, pe⟩] } : ModelManager)).getVertex q.2.2).isSome := by
      intro q hq
      exact hends q (List.mem_cons_of_mem _ hq)
    obtain ⟨he, hv, hf, hvm, hfm, hlook⟩ := ih _ hfresh' hnodup' hends'
    refine ⟨?_, by simpa using hv, by simpa using hf, by simpa using hvm, by simpa using hfm, ?_⟩
    · rw [he]
      simp [eEntry, List.append_assoc]
    · intro id
      rw [hlook id]
      by_cases hid : id = pid
      · subst hid
        rw [mapFind_entry_none t eEntry _ hpid_notin]
        simp [eEntry]
      · simp [hid]

/-- Effect of a batch of fresh-id `addFace` calls whose referenced edges all
exist: the new faces are appended in order, nothing else changes, and face
lookups see the batch first. -/
theorem addFaceList_spec (l : List (Int × List Int)) (m : ModelManager)
    (hfresh : ∀ p ∈ l, mapFind m.face_map p.1 = none)
    (hnodup : (l.map Prod.fst).Nodup)
    (hedges : ∀ p ∈ l, (p.2.all (fun eid => (m.getEdge eid).isSome)) = true) :
    (addFaceList m l).faces = m.faces ++ l.map fEntry ∧
    (addFaceList m l).vertices = m.vertices ∧
    (addFaceList m l).edges = m.edges ∧
    (addFaceList m l).vertex_map = m.vertex_map ∧
    (addFaceList m l).edge_map = m.edge_map ∧
    (∀ id, mapFind (addFaceList m l).face_map id =
      ofind (mapFind (l.map (fun p => (p.1, fEntry p))) id) (mapFind m.face_map id)) := by
  induction l generalizing m with
  | nil => simp [addFaceList, ofind]
  | cons p t ih =>
    obtain ⟨pid, peids⟩ := p
    have hfresh0 : mapFind m.face_map pid = none := hfresh _ (List.mem_cons_self _ _)
    have hedges0 := hedges _ (List.mem_cons_self _ _)
    have hcons : (pid :: t.map Prod.fst).Nodup := hnodup
    have hpid_notin : pid ∉ t.map Prod.fst := (List.nodup_cons.mp hcons).1
    have h1 : (m.addFace pid peids).1 =
        { m with face_map := (pid, ⟨peids, (0, 0, 0)⟩) :: m.face_map,
                 faces := m.faces ++ [⟨peids, (0, 0, 0)⟩] } := by
      rw [ModelManager.addFace_of_success m pid peids hfresh0 hedges0]
    have hunfold : addFaceList m ((pid, peids) :: t) =
        addFaceList (m.addFace pid peids).1 t := rfl
    rw [hunfold, h1]
    have hfresh' : ∀ q ∈ t,
        mapFind ({ m with face_map := (pid, ⟨peids, (0, 0, 0)⟩) :: m.face_map,
                          faces := m.faces ++ [⟨peids, (0, 0, 0)⟩] } :
          ModelManager).face_map q.1 = none := by
      intro q hq
      have hne : q.1 ≠ pid := by
        intro hcontra
        exact hpid_notin (hcontra ▸ List.mem_map_of_mem Prod.fst hq)
      simp only [mapFind_cons, if_neg hne]
      exact hfresh q (List.mem_cons_of_mem _ hq)
    have hnodup' : (t.map Prod.fst).Nodup := (List.nodup_cons.mp hcons).2
    have hedges' : ∀ q ∈ t,
        (q.2.all (fun eid =>
          ((({ m with face_map := (pid, ⟨peids, (0, 0, 0)⟩) :: m.face_map,
                      faces := m.faces ++ [⟨peids, (0, 0, 0)⟩] } :
            ModelManager)).getEdge eid).isSome)) = true := by
      intro q hq
      exact hedges q (List.mem_cons_of_mem _ hq)
    obtain ⟨hf, hv, he, hvm, hem, hlook⟩ := ih _ hfresh' hnodup' hedges'
    refine ⟨?_, by simpa using hv, by simpa using he, by simpa using hvm, by simpa using hem, ?_⟩
    · rw [hf]
      simp [fEntry, List.append_assoc]
    · intro id
      rw [hlook id]
      by_cases hid : id = pid
      · subst hid
        rw [mapFind_entry_none t fEntry _ hpid_notin]
        simp [fEntry]
      · simp [hid]

/-- A fold whose step function fixes every accumulator returns its seed. -/
theorem foldl_eq_init {α β : Type} (f : α → β → α) (l : List β) (b : α)
    (h : ∀ acc a, a ∈ l → f acc a = acc) : l.foldl f b = b := by
  induction l generalizing b with
  | nil => rfl
  | cons x t ih =>
    rw [List.foldl_cons, h b x (List.mem_cons_self x t)]
    exact ih b (fun acc a ha => h acc a (List.mem_cons_of_mem x ha))

/-- The dot product of a 3-vector with itself is a sum of squares. -/
theorem self_dot_nonneg (v : ℚ × ℚ × ℚ) :
    0 ≤ v.1 * v.1 + v.2.1 * v.2.1 + v.2.2 * v.2.2 := by
  have h1 := mul_self_nonneg v.1
  have h2 := mul_self_nonneg v.2.1
  have h3 := mul_self_nonneg v.2.2
  linarith

/-- Either `addEdge` leaves the store unchanged, or both endpoints exist and
it appends exactly the new edge. -/
theorem addEdge_cases (m : ModelManager) (id s e : Int) :
    ((m.addEdge id s e).1 = m) ∨
    ((m.getVertex s).isSome ∧ (m.getVertex e).isSome ∧
      m.addEdge id s e =
        ({ m with edge_map := (id, ⟨s, e⟩) :: m.edge_map,
                  edges := m.edges ++ [⟨s, e⟩] }, some ⟨s, e⟩)) := by
  unfold ModelManager.addEdge
  cases hm : mapFind m.edge_map id with
  | some v => exact Or.inl rfl
  | none =>
    by_cases hb : (((m.getVertex s).isNone || (m.getVertex e).isNone) = true)
    · rw [if_pos hb]
      exact Or.inl rfl
    · rw [if_neg hb]
      simp only [Bool.or_eq_true, Option.isNone_iff_eq_none] at hb
      push_neg at hb
      exact Or.inr ⟨Option.isSome_iff_ne_none.mpr hb.1, Option.isSome_iff_ne_none.mpr hb.2, rfl⟩

/-- Either `addFace` leaves the store unchanged, or all referenced edges
exist and it appends exactly the new face. -/
theorem addFace_cases (m : ModelManager) (id : Int) (eids : List Int) :
    ((m.addFace id eids).1 = m) ∨
    ((eids.all (fun eid => (m.getEdge eid).isSome)) = true ∧
      m.addFace id eids =
        ({ m with face_map := (id, ⟨eids, (0, 0, 0)⟩) :: m.face_map,
                  faces := m.faces ++ [⟨eids, (0, 0, 0)⟩] }, some ⟨eids, (0, 0, 0)⟩)) := by
  unfold ModelManager.addFace
  cases hm : mapFind m.face_map id with
  | some v => exact Or.inl rfl
  | none =>
    by_cases hb : (eids.all (fun eid => (m.getEdge eid).isSome)) = true
    · rw [if_pos hb]
      exact Or.inr ⟨hb, rfl⟩
    · rw [if_neg hb]
      exact Or.inl rfl

/-- Claim C2: for every store (and every model of `std::sqrt`),
`detectNormalInconsistencies` returns the empty list: because the reference
normal aliases `calculateFaceNormal`'s shared static buffer, the dot product
computed in the loop is a sum of squares of the current face's normal
components, so the negative-dot-product branch is unreachable. -/
theorem claim_C2_normal_detector_always_empty (sqrtF : ℚ → ℚ) (m : ModelManager) :
    TopologyChecker.detectNormalInconsistencies sqrtF m = [] := by
  unfold TopologyChecker.detectNormalInconsistencies
  cases hfc : m.faces with
  | nil => rfl
  | cons f rest =>
    cases hemp : f.edge_ids.isEmpty with
    | true => simp [hemp]
    | false =>
      simp only [hemp, Bool.false_eq_true, if_false]
      apply foldl_eq_init
      intro acc p hp
      cases hpe : p.2.edge_ids.isEmpty with
      | true => simp [hpe]
      | false =>
        have hnn := self_dot_nonneg (GeometryAlgorithm.calculateFaceNormal sqrtF p.2 m)
        simp [hpe, not_lt.mpr hnn]

/-- Claim C3 (amended): `addEdge(id, start_id, end_id)` fails (returns the
not-found sentinel) iff the edge id is not already present in the store and
at least one of `start_id`, `end_id` is absent from the store's vertices;
when the edge id is already present the existing edge is returned without
consulting the endpoint arguments. -/
theorem claim_C3_addEdge_failure_iff (m : ModelManager) (id s e : Int) :
    (m.addEdge id s e).2 = none ↔
      (mapFind m.edge_map id = none ∧ (m.getVertex s = none ∨ m.getVertex e = none)) := by
  unfold ModelManager.addEdge
  cases hm : mapFind m.edge_map id with
  | some v => simp
  | none =>
    cases hs : m.getVertex s with
    | none => simp [hs]
    | some v1 =>
      cases he : m.getVertex e with
      | none => simp [hs, he]
      | some v2 => simp [hs, he]

/-- Claim C3 counterexample: in a store that already contains edge id 5,
`addEdge(5, 99, 100)` succeeds (returns the existing edge) although vertices
99 and 100 are absent, refuting "fails iff an endpoint id is absent". -/
theorem claim_C3_counterexample :
    ¬ ((storeWithEdge5.addEdge 5 99 100).2 = none ↔
        (storeWithEdge5.getVertex 99 = none ∨ storeWithEdge5.getVertex 100 = none)) := by
  decide

/-- Claim C6: whenever `addEdge` or `addFace` returns the not-found sentinel,
the store is left completely unchanged (no map and no insertion-order
sequence is modified; no partial entity is created). -/
theorem claim_C6_failed_add_leaves_store_unchanged (m : ModelManager)
    (id s e fid : Int) (eids : List Int) :
    ((m.addEdge id s e).2 = none → (m.addEdge id s e).1 = m) ∧
    ((m.addFace fid eids).2 = none → (m.addFace fid eids).1 = m) := by
  constructor
  · intro h
    rcases addEdge_cases m id s e with h1 | ⟨_, _, h1⟩
    · exact h1
    · rw [h1] at h
      simp at h
  · intro h
    rcases addFace_cases m fid eids with h1 | ⟨_, h1⟩
    · exact h1
    · rw [h1] at h
      simp at h

/-- Claim C6 witness: concrete failing `addEdge`/`addFace` calls on the empty
store leave it unchanged. -/
theorem claim_C6_witness :
    (ModelManager.empty.addEdge 1 1 2).1 = ModelManager.empty ∧
    (ModelManager.empty.addFace 1 [5]).1 = ModelManager.empty :=
  ⟨(claim_C6_failed_add_leaves_store_unchanged ModelManager.empty 1 1 2 1 [5]).1 (by decide),
   (claim_C6_failed_add_leaves_store_unchanged ModelManager.empty 1 1 2 1 [5]).2 (by decide)⟩

/-- Claim C8: adding a fresh vertex makes `getVertex` return exactly the
given coordinates, and re-adding an existing id returns the pre-existing
vertex and leaves the store (hence the stored coordinates) unchanged. -/
theorem claim_C8_addVertex_get_and_idempotent (m : ModelManager) (id : Int)
    (x y z x' y' z' : ℚ) (v : Point3D) :
    (m.getVertex id = none →
      (m.addVertex id x y z).1.getVertex id = some ⟨id, x, y, z⟩) ∧
    (m.getVertex id = some v →
      (m.addVertex id x' y' z').2 = some v ∧ (m.addVertex id x' y' z').1 = m) := by
  constructor
  · intro h
    rw [ModelManager.addVertex_of_fresh m id x y z h]
    unfold ModelManager.getVertex
    simp
  · intro h
    rw [ModelManager.addVertex_of_present m id x' y' z' v h]
    exact ⟨rfl, rfl⟩

/-- Claim C8 witness: vertex 1 added with coordinates (1,2,3); a second add
with (4,5,6) returns the original vertex and changes nothing. -/
theorem claim_C8_witness :
    ((ModelManager.empty.addVertex 1 1 2 3).1.getVertex 1 = some ⟨1, 1, 2, 3⟩) ∧
    (((ModelManager.empty.addVertex 1 1 2 3).1.addVertex 1 4 5 6).2 = some ⟨1, 1, 2, 3⟩ ∧
      ((ModelManager.empty.addVertex 1 1 2 3).1.addVertex 1 4 5 6).1 =
        (ModelManager.empty.addVertex 1 1 2 3).1) :=
  ⟨(claim_C8_addVertex_get_and_idempotent ModelManager.empty 1 1 2 3 4 5 6
      ⟨1, 1, 2, 3⟩).1 (by decide),
   (claim_C8_addVertex_get_and_idempotent (ModelManager.empty.addVertex 1 1 2 3).1 1
      1 2 3 4 5 6 ⟨1, 1, 2, 3⟩).2 (by decide)⟩

/-- Claim C9: in a store whose edge vector holds exactly two edges, both
joining vertices 1 and 2 in either orientation, `detectDuplicateEdges`
returns exactly one entry: the start vertex id of the second-inserted edge
(not the edge's own id). -/
theorem claim_C9_duplicate_edges_scenario (m : ModelManager) (e1 e2 : Edge)
    (_hv1 : (m.getVertex 1).isSome = true) (_hv2 : (m.getVertex 2).isSome = true)
    (hedges : m.edges = [e1, e2])
    (h1 : (e1.start_id = 1 ∧ e1.end_id = 2) ∨ (e1.start_id = 2 ∧ e1.end_id = 1))
    (h2 : (e2.start_id = 1 ∧ e2.end_id = 2) ∨ (e2.start_id = 2 ∧ e2.end_id = 1)) :
    TopologyChecker.detectDuplicateEdges m = [e2.start_id] := by
  unfold TopologyChecker.detectDuplicateEdges
  rw [hedges]
  obtain ⟨a1, b1⟩ := e1
  obtain ⟨a2, b2⟩ := e2
  obtain ⟨rfl, rfl⟩ | ⟨rfl, rfl⟩ := h1 <;> obtain ⟨rfl, rfl⟩ | ⟨rfl, rfl⟩ := h2 <;> decide

/-- Claim C9 witness: edges 10:(1→2) and 11:(2→1) in a store with vertices
1 and 2; the detector reports the single entry 2 (the second edge's start
vertex id, not the edge id 11). -/
theorem claim_C9_witness :
    TopologyChecker.detectDuplicateEdges storeTwoParallelEdges = [2] :=
  claim_C9_duplicate_edges_scenario storeTwoParallelEdges ⟨1, 2⟩ ⟨2, 1⟩
    (by decide) (by decide) (by decide)
    (Or.inl ⟨rfl, rfl⟩) (Or.inr ⟨rfl, rfl⟩)

/-- Claim C10: `calculateFaceNormal` behaves exactly as specified: (0,0,1)
when the face has fewer than 3 referenced edges or any of its first two
edges or the vertices v1, v2, v3 cannot be resolved; otherwise the cross
product of (v2-v1) and (v3-v1), normalised when its length exceeds 1e-6 and
returned unnormalised otherwise — only the first two edges are examined. -/
theorem claim_C10_face_normal_as_specified (sqrtF : ℚ → ℚ) (face : Face) (m : ModelManager) :
    GeometryAlgorithm.calculateFaceNormal sqrtF face m =
      calculateFaceNormalAsSpecified sqrtF face m := by
  unfold GeometryAlgorithm.calculateFaceNormal calculateFaceNormalAsSpecified
  by_cases hlen : face.edge_ids.length < 3
  · rw [if_pos hlen]
    split
    · split
      · rw [if_pos hlen]
      · rfl
    · rfl
  · rw [if_neg hlen]
    split
    · split
      · rw [if_neg hlen]
      · rfl
    · rfl

/-- Consing a new binding onto a map preserves all successful lookups. -/
theorem mapFind_isSome_cons {α : Type} (k : Int) (v : α) (l : List (Int × α)) (i : Int)
    (h : (mapFind l i).isSome = true) : (mapFind ((k, v) :: l) i).isSome = true := by
  by_cases hik : i = k <;> simp [hik, h]

/-- The empty store trivially satisfies referential integrity. -/
theorem refIntegrity_empty : RefIntegrity ModelManager.empty := by
  refine ⟨?_, ?_, ?_, ?_⟩ <;> intro x hx <;> simp [ModelManager.empty] at hx

/-- `addVertex` preserves referential integrity. -/
theorem refIntegrity_addVertex (m : ModelManager) (id : Int) (x y z : ℚ)
    (h : RefIntegrity m) : RefIntegrity (m.addVertex id x y z).1 := by
  obtain ⟨hE, hEM, hF, hFM⟩ := h
  unfold ModelManager.addVertex
  cases hm : mapFind m.vertex_map id with
  | some v => exact ⟨hE, hEM, hF, hFM⟩
  | none =>
    refine ⟨?_, ?_, ?_, ?_⟩
    · intro ed hed
      obtain ⟨h1, h2⟩ := hE ed hed
      exact ⟨mapFind_isSome_cons _ _ _ _ h1, mapFind_isSome_cons _ _ _ _ h2⟩
    · intro p hp
      obtain ⟨h1, h2⟩ := hEM p hp
      exact ⟨mapFind_isSome_cons _ _ _ _ h1, mapFind_isSome_cons _ _ _ _ h2⟩
    · intro f hf eid heid
      exact hF f hf eid heid
    · intro p hp eid heid
      exact hFM p hp eid heid

/-- `addEdge` preserves referential integrity. -/
theorem refIntegrity_addEdge (m : ModelManager) (id s e : Int)
    (h : RefIntegrity m) : RefIntegrity (m.addEdge id s e).1 := by
  obtain ⟨hE, hEM, hF, hFM⟩ := h
  rcases addEdge_cases m id s e with heq | ⟨hs, he', heq⟩
  · rw [heq]
    exact ⟨hE, hEM, hF, hFM⟩
  · have h1 : (m.addEdge id s e).1 =
        { m with edge_map := (id, ⟨s, e⟩) :: m.edge_map, edges := m.edges ++ [⟨s, e⟩] } := by
      rw [heq]
    rw [h1]
    refine ⟨?_, ?_, ?_, ?_⟩
    · intro ed hed
      rcases List.mem_append.mp hed with hold | hnew
      · exact hE ed hold
      · have hcase : ed = ⟨s, e⟩ := by simpa using hnew
        subst hcase
        exact ⟨hs, he'⟩
    · intro p hp
      rcases List.mem_cons.mp hp with hpeq | hold
      · subst hpeq
        exact ⟨hs, he'⟩
      · exact hEM p hold
    · intro f hf eid heid
      exact mapFind_isSome_cons _ _ _ _ (hF f hf eid heid)
    · intro p hp eid heid
      exact mapFind_isSome_cons _ _ _ _ (hFM p hp eid heid)

/-- `addFace` preserves referential integrity. -/
theorem refIntegrity_addFace (m : ModelManager) (id : Int) (eids : List Int)
    (h : RefIntegrity m) : RefIntegrity (m.addFace id eids).1 := by
  obtain ⟨hE, hEM, hF, hFM⟩ := h
  rcases addFace_cases m id eids with heq | ⟨hb, heq⟩
  · rw [heq]
    exact ⟨hE, hEM, hF, hFM⟩
  · have h1 : (m.addFace id eids).1 =
        { m with face_map := (id, ⟨eids, (0, 0, 0)⟩) :: m.face_map,
                 faces := m.faces ++ [⟨eids, (0, 0, 0)⟩] } := by
      rw [heq]
    rw [h1]
    refine ⟨?_, ?_, ?_, ?_⟩
    · intro ed hed
      exact hE ed hed
    · intro p hp
      exact hEM p hp
    · intro f hf eid heid
      rcases List.mem_append.mp hf with hold | hnew
      · exact hF f hold eid heid
      · have hcase : f = ⟨eids, (0, 0, 0)⟩ := by simpa using hnew
        subst hcase
        exact List.all_eq_true.mp hb eid heid
    · intro p hp eid heid
      rcases List.mem_cons.mp hp with hpeq | hold
      · subst hpeq
        exact List.all_eq_true.mp hb eid heid
      · exact hFM p hold eid heid

/-- Every store operation preserves referential integrity. -/
theorem refIntegrity_applyOp (m : ModelManager) (o : StoreOp) (h : RefIntegrity m) :
    RefIntegrity (applyOp m o) := by
  cases o with
  | addV id x y z => exact refIntegrity_addVertex m id x y z h
  | addE id s e => exact refIntegrity_addEdge m id s e h
  | addF id eids => exact refIntegrity_addFace m id eids h
  | resV k => exact h
  | resE k => exact h
  | resF k => exact h

/-- Running any operation sequence preserves referential integrity. -/
theorem refIntegrity_runOps (ops : List StoreOp) :
    ∀ m, RefIntegrity m → RefIntegrity (runOps m ops) := by
  induction ops with
  | nil => intro m h; exact h
  | cons o t ih => intro m h; exact ih _ (refIntegrity_applyOp m o h)

/-- Claim C7: referential integrity is a reachable-state invariant: in every
store built from the empty store by any sequence of addVertex, addEdge,
addFace and reserve operations, every stored edge's endpoints resolve to
vertices in the store and every stored face's edge ids resolve to edges. -/
theorem claim_C7_referential_integrity (m : ModelManager) (h : Reachable m) :
    RefIntegrity m := by
  obtain ⟨ops, rfl⟩ := h
  exact refIntegrity_runOps ops ModelManager.empty refIntegrity_empty

/-- Claim C7 witness: a concrete reachable store satisfies the invariant. -/
theorem claim_C7_witness : Reachable storeSmall ∧ RefIntegrity storeSmall :=
  ⟨⟨opsSmall, rfl⟩, claim_C7_referential_integrity storeSmall ⟨opsSmall, rfl⟩⟩

/-- Projecting the ids back out of a mapped entry list. -/
theorem entry_map_fst {β γ : Type} (l : List (Int × β)) (f : Int × β → γ) :
    (l.map (fun p => (p.1, f p))).map Prod.fst = l.map Prod.fst := by
  rw [List.map_map]
  rfl

/-- `extrude` is the batch composition of its vertex, edge and face loops. -/
theorem extrude_as_batches (m : ModelManager) (profile_vertices : List Point3D) (distance : ℚ)
    (h : profile_vertices.isEmpty = false) :
    GeometryAlgorithm.extrude m profile_vertices distance =
      (addFaceList
        (addEdgeList
          (addVertexList m (extrudeBaseVertexInstrs profile_vertices ++
            extrudeTopVertexInstrs profile_vertices distance))
          (extrudeEdgeInstrs profile_vertices.length))
        (extrudeFaceInstrs profile_vertices.length), true) := by
  unfold GeometryAlgorithm.extrude
  rw [h]
  simp only [Bool.false_eq_true, if_false, extrudeBaseVertexInstrs, extrudeTopVertexInstrs,
    extrudeEdgeInstrs, extrudeFaceInstrs, extrudeSideFaceInstrs, addVertexList, addEdgeList,
    addFaceList, List.foldl_append, List.foldl_map, List.foldl_cons,
    ModelManager.reserveVertices, ModelManager.reserveEdges, ModelManager.reserveFaces]

/-- Ids of the base-ring vertex instructions. -/
theorem extrudeBaseVertexInstrs_fst (profile_vertices : List Point3D) :
    (extrudeBaseVertexInstrs profile_vertices).map Prod.fst =
      (List.range profile_vertices.length).map (fun (i : Nat) => 1 + (i : Int)) := by
  unfold extrudeBaseVertexInstrs
  rw [List.map_map]
  rfl

/-- Ids of the top-ring vertex instructions. -/
theorem extrudeTopVertexInstrs_fst (profile_vertices : List Point3D) (distance : ℚ) :
    (extrudeTopVertexInstrs profile_vertices distance).map Prod.fst =
      (List.range profile_vertices.length).map
        (fun (i : Nat) => 1 + (profile_vertices.length : Int) + (i : Int)) := by
  unfold extrudeTopVertexInstrs
  rw [List.map_map]
  rfl

/-- Ids of the edge instructions. -/
theorem extrudeEdgeInstrs_fst (n : Nat) :
    (extrudeEdgeInstrs n).map Prod.fst =
      ((List.range n).map (fun (i : Nat) => 1 + (i : Int)) ++
       (List.range n).map (fun (i : Nat) => 1 + (n : Int) + (i : Int))) ++
      (List.range n).map (fun (i : Nat) => 1 + (2 * n : Int) + (i : Int)) := by
  unfold extrudeEdgeInstrs
  rw [List.map_append, List.map_append, List.map_map, List.map_map, List.map_map]
  rfl

/-- Ids of the side-face instructions. -/
theorem extrudeSideFaceInstrs_fst (n : Nat) :
    (extrudeSideFaceInstrs n).map Prod.fst =
      (List.range n).map (fun (i : Nat) => 3 + (i : Int)) := by
  unfold extrudeSideFaceInstrs
  rw [List.map_map]
  rfl

@[simp] theorem ofind_isSome {α : Type} (o o' : Option α) :
    (ofind o o').isSome = true ↔ (o.isSome = true ∨ o'.isSome = true) := by
  cases o <;> simp [ofind]

/-- Endpoint bounds for the edge instructions issued by `extrude`. -/
theorem extrudeEdgeInstrs_ends {n : Nat} (hn : 0 < n) :
    ∀ p ∈ extrudeEdgeInstrs n,
      (1 ≤ p.2.1 ∧ p.2.1 < 1 + 2 * (n : Int)) ∧
      (1 ≤ p.2.2 ∧ p.2.2 < 1 + 2 * (n : Int)) := by
  intro p hp
  unfold extrudeEdgeInstrs at hp
  simp only [List.mem_append, List.mem_map, List.mem_range] at hp
  rcases hp with (⟨i, hi, rfl⟩ | ⟨i, hi, rfl⟩) | ⟨i, hi, rfl⟩ <;>
    have hmod : (i + 1) % n < n := Nat.mod_lt _ hn <;>
    refine ⟨⟨?_, ?_⟩, ⟨?_, ?_⟩⟩ <;> dsimp only <;> omega

/-- Id bounds for the edge instructions issued by `extrude`. -/
theorem extrudeEdgeInstrs_id_bounds {n : Nat} {p : Int × Int × Int}
    (hp : p ∈ extrudeEdgeInstrs n) : 1 ≤ p.1 ∧ p.1 < 1 + 3 * (n : Int) := by
  have h1 : p.1 ∈ (extrudeEdgeInstrs n).map Prod.fst := List.mem_map_of_mem Prod.fst hp
  rw [extrudeEdgeInstrs_fst] at h1
  simp only [List.mem_append, List.mem_map, List.mem_range] at h1
  rcases h1 with (⟨i, hi, hieq⟩ | ⟨i, hi, hieq⟩) | ⟨i, hi, hieq⟩ <;> omega

/-- Referenced-edge bounds for the side-face instructions of `extrude`. -/
theorem extrudeSideFaceInstrs_refs {n : Nat} (hn : 0 < n) :
    ∀ p ∈ extrudeSideFaceInstrs n, ∀ eid ∈ p.2, 1 ≤ eid ∧ eid < 1 + 3 * (n : Int) := by
  intro p hp
  unfold extrudeSideFaceInstrs at hp
  simp only [List.mem_map, List.mem_range] at hp
  obtain ⟨i, hi, rfl⟩ := hp
  intro eid heid
  have hmod : (i + 1) % n < n := Nat.mod_lt _ hn
  simp only [List.mem_cons, List.not_mem_nil, or_false] at heid
  rcases heid with rfl | rfl | rfl | rfl <;> constructor <;> omega

/-- Claim C4: extruding a non-empty n-point profile into an empty store
returns true and leaves exactly 2n vertices, 3n edges and n+2 faces, with
face 1 referencing the base-ring edge ids 1..n in order and face 2
referencing the top-ring edge ids n+1..2n in order. -/
theorem claim_C4_extrude_empty_store (profile_vertices : List Point3D) (distance : ℚ)
    (h : profile_vertices ≠ []) :
    (GeometryAlgorithm.extrude ModelManager.empty profile_vertices distance).2 = true ∧
    (GeometryAlgorithm.extrude ModelManager.empty profile_vertices distance).1.vertices.length =
      2 * profile_vertices.length ∧
    (GeometryAlgorithm.extrude ModelManager.empty profile_vertices distance).1.edges.length =
      3 * profile_vertices.length ∧
    (GeometryAlgorithm.extrude ModelManager.empty profile_vertices distance).1.faces.length =
      profile_vertices.length + 2 ∧
    ((GeometryAlgorithm.extrude ModelManager.empty profile_vertices distance).1.getFace 1).map
        Face.edge_ids =
      some ((List.range profile_vertices.length).map (fun (i : Nat) => (i : Int) + 1)) ∧
    ((GeometryAlgorithm.extrude ModelManager.empty profile_vertices distance).1.getFace 2).map
        Face.edge_ids =
      some ((List.range profile_vertices.length).map
        (fun (i : Nat) => (profile_vertices.length : Int) + (i : Int) + 1)) := by
  have hne : profile_vertices.isEmpty = false := by
    cases profile_vertices with
    | nil => exact absurd rfl h
    | cons a t => rfl
  have hn : 0 < profile_vertices.length := by
    cases profile_vertices with
    | nil => exact absurd rfl h
    | cons a t => simp
  rw [extrude_as_batches ModelManager.empty profile_vertices distance hne]
  set n := profile_vertices.length with hndef
  have hfreshV : ∀ p ∈ (extrudeBaseVertexInstrs profile_vertices ++
      extrudeTopVertexInstrs profile_vertices distance),
      mapFind ModelManager.empty.vertex_map p.1 = none := fun p _ => rfl
  have hndV : (((extrudeBaseVertexInstrs profile_vertices ++
      extrudeTopVertexInstrs profile_vertices distance)).map Prod.fst).Nodup := by
    rw [List.map_append, extrudeBaseVertexInstrs_fst, extrudeTopVertexInstrs_fst,
      List.nodup_append]
    refine ⟨nodup_range_map_add, nodup_range_map_add, ?_⟩
    intro a ha hb
    simp only [List.mem_map, List.mem_range] at ha hb
    obtain ⟨i, hi, hieq⟩ := ha
    obtain ⟨j, hj, hjeq⟩ := hb
    omega
  obtain ⟨hVv, hVe, hVf, hVem, hVfm, hVlook⟩ :=
    addVertexList_spec (extrudeBaseVertexInstrs profile_vertices ++
      extrudeTopVertexInstrs profile_vertices distance) ModelManager.empty hfreshV hndV
  have hVsome : ∀ id : Int, 1 ≤ id → id < 1 + 2 * (n : Int) →
      ((addVertexList ModelManager.empty (extrudeBaseVertexInstrs profile_vertices ++
        extrudeTopVertexInstrs profile_vertices distance)).getVertex id).isSome = true := by
    intro id hid1 hid2
    unfold ModelManager.getVertex
    rw [hVlook id, ofind_isSome]
    left
    rw [mapFind_isSome_iff, entry_map_fst, List.map_append, extrudeBaseVertexInstrs_fst,
      extrudeTopVertexInstrs_fst, List.mem_append]
    simp only [List.mem_map, List.mem_range]
    by_cases hc : id < 1 + (n : Int)
    · exact Or.inl ⟨(id - 1).toNat, by omega, by omega⟩
    · exact Or.inr ⟨(id - 1 - n).toNat, by omega, by omega⟩
  have hfreshE : ∀ p ∈ extrudeEdgeInstrs n,
      mapFind (addVertexList ModelManager.empty (extrudeBaseVertexInstrs profile_vertices ++
        extrudeTopVertexInstrs profile_vertices distance)).edge_map p.1 = none := by
    intro p _
    rw [hVem]
    rfl
  have hndE : ((extrudeEdgeInstrs n).map Prod.fst).Nodup := by
    rw [extrudeEdgeInstrs_fst, List.nodup_append, List.nodup_append]
    refine ⟨⟨nodup_range_map_add, nodup_range_map_add, ?_⟩, nodup_range_map_add, ?_⟩
    · intro a ha hb
      simp only [List.mem_map, List.mem_range] at ha hb
      obtain ⟨i, hi, hieq⟩ := ha
      obtain ⟨j, hj, hjeq⟩ := hb
      omega
    · intro a ha hb
      simp only [List.mem_append, List.mem_map, List.mem_range] at ha hb
      obtain ⟨j, hj, hjeq⟩ := hb
      rcases ha with ⟨i, hi, hieq⟩ | ⟨i, hi, hieq⟩ <;> omega
  have hendsE : ∀ p ∈ extrudeEdgeInstrs n,
      (((addVertexList ModelManager.empty (extrudeBaseVertexInstrs profile_vertices ++
        extrudeTopVertexInstrs profile_vertices distance))).getVertex p.2.1).isSome = true ∧
      (((addVertexList ModelManager.empty (extrudeBaseVertexInstrs profile_vertices ++
        extrudeTopVertexInstrs profile_vertices distance))).getVertex p.2.2).isSome = true := by
    intro p hp
    obtain ⟨⟨h1, h2⟩, h3, h4⟩ := extrudeEdgeInstrs_ends hn p hp
    exact ⟨hVsome _ h1 h2, hVsome _ h3 h4⟩
  obtain ⟨hEe, hEv, hEf, hEvm, hEfm, hElook⟩ :=
    addEdgeList_spec (extrudeEdgeInstrs n) _ hfreshE hndE hendsE
  have hEsome : ∀ id : Int, 1 ≤ id → id < 1 + 3 * (n : Int) →
      ((addEdgeList (addVertexList ModelManager.empty
        (extrudeBaseVertexInstrs profile_vertices ++
          extrudeTopVertexInstrs profile_vertices distance))
        (extrudeEdgeInstrs n)).getEdge id).isSome = true := by
    intro id h1 h2
    unfold ModelManager.getEdge
    rw [hElook id, ofind_isSome]
    left
    rw [mapFind_isSome_iff, entry_map_fst, extrudeEdgeInstrs_fst]
    simp only [List.mem_append, List.mem_map, List.mem_range]
    by_cases hc1 : id < 1 + (n : Int)
    · exact Or.inl (Or.inl ⟨(id - 1).toNat, by omega, by omega⟩)
    · by_cases hc2 : id < 1 + 2 * (n : Int)
      · exact Or.inl (Or.inr ⟨(id - 1 - n).toNat, by omega, by omega⟩)
      · exact Or.inr ⟨(id - 1 - 2 * n).toNat, by omega, by omega⟩
  have hfreshF : ∀ p ∈ extrudeFaceInstrs n,
      mapFind (addEdgeList (addVertexList ModelManager.empty
        (extrudeBaseVertexInstrs profile_vertices ++
          extrudeTopVertexInstrs profile_vertices distance))
        (extrudeEdgeInstrs n)).face_map p.1 = none := by
    intro p _
    rw [hEfm, hVfm]
    rfl
  have hndF : ((extrudeFaceInstrs n).map Prod.fst).Nodup := by
    unfold extrudeFaceInstrs
    simp only [List.map_cons]
    rw [List.nodup_cons, List.nodup_cons]
    refine ⟨?_, ?_, ?_⟩
    · intro hmem
      rcases List.mem_cons.mp hmem with h12 | hside
      · exact absurd h12 (by decide)
      · rw [extrudeSideFaceInstrs_fst] at hside
        simp only [List.mem_map, List.mem_range] at hside
        obtain ⟨i, hi, hieq⟩ := hside
        omega
    · intro hmem
      rw [extrudeSideFaceInstrs_fst] at hmem
      simp only [List.mem_map, List.mem_range] at hmem
      obtain ⟨i, hi, hieq⟩ := hmem
      omega
    · rw [extrudeSideFaceInstrs_fst]
      exact nodup_range_map_add
  have hedgesF : ∀ p ∈ extrudeFaceInstrs n,
      (p.2.all (fun eid => ((addEdgeList (addVertexList ModelManager.empty
        (extrudeBaseVertexInstrs profile_vertices ++
          extrudeTopVertexInstrs profile_vertices distance))
        (extrudeEdgeInstrs n)).getEdge eid).isSome)) = true := by
    intro p hp
    rw [List.all_eq_true]
    intro eid heid
    unfold extrudeFaceInstrs at hp
    rcases List.mem_cons.mp hp with rfl | hp'
    · simp only [List.mem_map, List.mem_range] at heid
      obtain ⟨i, hi, rfl⟩ := heid
      exact hEsome _ (by omega) (by omega)
    · rcases List.mem_cons.mp hp' with rfl | hp2
      · simp only [List.mem_map, List.mem_range] at heid
        obtain ⟨i, hi, rfl⟩ := heid
        exact hEsome _ (by omega) (by omega)
      · obtain ⟨hlo, hhi⟩ := extrudeSideFaceInstrs_refs hn p hp2 eid heid
        exact hEsome _ hlo hhi
  obtain ⟨hFf, hFv, hFe, hFvm, hFem, hFlook⟩ :=
    addFaceList_spec (extrudeFaceInstrs n) _ hfreshF hndF hedgesF
  refine ⟨rfl, ?_, ?_, ?_, ?_, ?_⟩
  · show (addFaceList _ _).vertices.length = 2 * n
    rw [hFv, hEv, hVv]
    simp only [ModelManager.empty, List.nil_append, List.length_append, List.length_map,
      extrudeBaseVertexInstrs, extrudeTopVertexInstrs, List.length_range]
    omega
  · show (addFaceList _ _).edges.length = 3 * n
    rw [hFe, hEe, hVe]
    simp only [ModelManager.empty, List.nil_append, List.length_append, List.length_map,
      extrudeEdgeInstrs, List.length_range]
    omega
  · show (addFaceList _ _).faces.length = n + 2
    rw [hFf, hEf, hVf]
    simp only [ModelManager.empty, List.nil_append, List.length_append, List.length_map,
      List.length_cons, extrudeFaceInstrs, extrudeSideFaceInstrs, List.length_range]
  · show ((addFaceList _ _).getFace 1).map Face.edge_ids = _
    unfold ModelManager.getFace
    rw [hFlook 1]
    have hface1 : mapFind ((extrudeFaceInstrs n).map (fun p => (p.1, fEntry p))) 1 =
        some ⟨(List.range n).map (fun (i : Nat) => (i : Int) + 1), (0, 0, 0)⟩ := by
      unfold extrudeFaceInstrs
      simp [mapFind_cons, fEntry]
    rw [hface1]
    rfl
  · show ((addFaceList _ _).getFace 2).map Face.edge_ids = _
    unfold ModelManager.getFace
    rw [hFlook 2]
    have hface2 : mapFind ((extrudeFaceInstrs n).map (fun p => (p.1, fEntry p))) 2 =
        some ⟨(List.range n).map (fun (i : Nat) => (n : Int) + (i : Int) + 1), (0, 0, 0)⟩ := by
      unfold extrudeFaceInstrs
      simp [mapFind_cons, fEntry]
    rw [hface2]
    rfl

/-- Claim C4 witness: the four-point unit-square profile extruded by 1 gives
8 vertices, 12 edges, 6 faces; face 1 references edges 1..4 and face 2
references edges 5..8. -/
theorem claim_C4_witness :
    (GeometryAlgorithm.extrude ModelManager.empty squareProfile 1).2 = true ∧
    (GeometryAlgorithm.extrude ModelManager.empty squareProfile 1).1.vertices.length = 8 ∧
    (GeometryAlgorithm.extrude ModelManager.empty squareProfile 1).1.edges.length = 12 ∧
    (GeometryAlgorithm.extrude ModelManager.empty squareProfile 1).1.faces.length = 6 ∧
    ((GeometryAlgorithm.extrude ModelManager.empty squareProfile 1).1.getFace 1).map
      Face.edge_ids = some [1, 2, 3, 4] ∧
    ((GeometryAlgorithm.extrude ModelManager.empty squareProfile 1).1.getFace 2).map
      Face.edge_ids = some [5, 6, 7, 8] := by
  obtain ⟨h1, h2, h3, h4, h5, h6⟩ :=
    claim_C4_extrude_empty_store squareProfile 1 (by decide)
  exact ⟨h1, h2, h3, h4, h5, h6⟩

/-- Claim C1: evaluation at the store with two opposite-orientation triangle
faces (normals (0,0,1) and (0,0,-1)): the code returns the empty list, while
the claimed comparison of each face's normal against the first face's normal
value flags position 2 — the static-buffer aliasing silently replaces the
reference normal by the current face's own normal. -/
theorem claim_C1_static_buffer_divergence :
    TopologyChecker.detectNormalInconsistencies ratSqrt storeOppositeFaces = [] ∧
    TopologyChecker.detectNormalInconsistenciesAsSpecified ratSqrt storeOppositeFaces = [2] := by
  have hstore : storeOppositeFaces =
      ⟨[(3, ⟨3, 0, 1, 0⟩), (2, ⟨2, 1, 0, 0⟩), (1, ⟨1, 0, 0, 0⟩)],
       [(6, ⟨2, 1⟩), (5, ⟨3, 2⟩), (4, ⟨1, 3⟩), (3, ⟨3, 1⟩), (2, ⟨2, 3⟩), (1, ⟨1, 2⟩)],
       [(2, ⟨[4, 5, 6], (0, 0, 0)⟩), (1, ⟨[1, 2, 3], (0, 0, 0)⟩)],
       [⟨1, 0, 0, 0⟩, ⟨2, 1, 0, 0⟩, ⟨3, 0, 1, 0⟩],
       [⟨1, 2⟩, ⟨2, 3⟩, ⟨3, 1⟩, ⟨1, 3⟩, ⟨3, 2⟩, ⟨2, 1⟩],
       [⟨[1, 2, 3], (0, 0, 0)⟩, ⟨[4, 5, 6], (0, 0, 0)⟩]⟩ := by
    decide
  rw [hstore]
  have hcf1 : GeometryAlgorithm.calculateFaceNormal ratSqrt ⟨[1, 2, 3], (0, 0, 0)⟩
      ⟨[(3, ⟨3, 0, 1, 0⟩), (2, ⟨2, 1, 0, 0⟩), (1, ⟨1, 0, 0, 0⟩)],
       [(6, ⟨2, 1⟩), (5, ⟨3, 2⟩), (4, ⟨1, 3⟩), (3, ⟨3, 1⟩), (2, ⟨2, 3⟩), (1, ⟨1, 2⟩)],
       [(2, ⟨[4, 5, 6], (0, 0, 0)⟩), (1, ⟨[1, 2, 3], (0, 0, 0)⟩)],
       [⟨1, 0, 0, 0⟩, ⟨2, 1, 0, 0⟩, ⟨3, 0, 1, 0⟩],
       [⟨1, 2⟩, ⟨2, 3⟩, ⟨3, 1⟩, ⟨1, 3⟩, ⟨3, 2⟩, ⟨2, 1⟩],
       [⟨[1, 2, 3], (0, 0, 0)⟩, ⟨[4, 5, 6], (0, 0, 0)⟩]⟩ = (0, 0, 1) := by
    unfold GeometryAlgorithm.calculateFaceNormal
    norm_num [ModelManager.getEdge, ModelManager.getVertex, mapFind, ratSqrt]
  have hcf2 : GeometryAlgorithm.calculateFaceNormal ratSqrt ⟨[4, 5, 6], (0, 0, 0)⟩
      ⟨[(3, ⟨3, 0, 1, 0⟩), (2, ⟨2, 1, 0, 0⟩), (1, ⟨1, 0, 0, 0⟩)],
       [(6, ⟨2, 1⟩), (5, ⟨3, 2⟩), (4, ⟨1, 3⟩), (3, ⟨3, 1⟩), (2, ⟨2, 3⟩), (1, ⟨1, 2⟩)],
       [(2, ⟨[4, 5, 6], (0, 0, 0)⟩), (1, ⟨[1, 2, 3], (0, 0, 0)⟩)],
       [⟨1, 0, 0, 0⟩, ⟨2, 1, 0, 0⟩, ⟨3, 0, 1, 0⟩],
       [⟨1, 2⟩, ⟨2, 3⟩, ⟨3, 1⟩, ⟨1, 3⟩, ⟨3, 2⟩, ⟨2, 1⟩],
       [⟨[1, 2, 3], (0, 0, 0)⟩, ⟨[4, 5, 6], (0, 0, 0)⟩]⟩ = (0, 0, -1) := by
    unfold GeometryAlgorithm.calculateFaceNormal
    norm_num [ModelManager.getEdge, ModelManager.getVertex, mapFind, ratSqrt]
  norm_num at hcf1 hcf2
  constructor
  · unfold TopologyChecker.detectNormalInconsistencies
    norm_num [List.enum, List.enumFrom, hcf2]
  · unfold TopologyChecker.detectNormalInconsistenciesAsSpecified
    norm_num [List.enum, List.enumFrom, hcf1, hcf2]
    decide

/-- `addEdge` never changes the vertex vector. -/
theorem vertices_addEdge (m : ModelManager) (a b c : Int) :
    (m.addEdge a b c).1.vertices = m.vertices :=
  (ModelManager.addEdge_preserves_others m a b c).2.1

/-- `addFace` never changes the vertex vector. -/
theorem vertices_addFace (m : ModelManager) (a : Int) (l : List Int) :
    (m.addFace a l).1.vertices = m.vertices :=
  (ModelManager.addFace_preserves_others m a l).2.1

/-- A fold whose step never changes the vertex vector preserves it. -/
theorem foldl_vertices_eq {β : Type} (f : ModelManager → β → ModelManager) (l : List β)
    (m : ModelManager) (h : ∀ acc b, (f acc b).vertices = acc.vertices) :
    (l.foldl f m).vertices = m.vertices := by
  induction l generalizing m with
  | nil => rfl
  | cons x t ih => rw [List.foldl_cons, ih (f m x), h]

/-- `revolve` is its vertex batch followed by the edge and face loops. -/
theorem revolve_as_batches (cosF sinF : ℚ → ℚ) (m : ModelManager)
    (profile_vertices : List Point3D) (a : Point3D) (d : ℚ × ℚ × ℚ) (angle : ℚ)
    (h : profile_vertices.isEmpty = false) :
    GeometryAlgorithm.revolve cosF sinF m profile_vertices a d angle =
      (revolveRestStages profile_vertices
        (addVertexList m (revolveVertexInstrs cosF sinF profile_vertices
          (angle / ((4 : Nat) : ℚ)))), true) := by
  unfold GeometryAlgorithm.revolve revolveRestStages revolveVertexInstrs revolveRingInstrs
  rw [h]
  simp only [Bool.false_eq_true, if_false, addVertexList, List.foldl_flatten, List.foldl_map,
    ModelManager.reserveVertices, ModelManager.reserveEdges, ModelManager.reserveFaces]

/-- The edge and face loops of `revolve` do not change the vertex vector. -/
theorem revolveRestStages_vertices (profile_vertices : List Point3D) (m1 : ModelManager) :
    (revolveRestStages profile_vertices m1).vertices = m1.vertices := by
  unfold revolveRestStages
  have h2 : ∀ (acc : ModelManager) (step : Nat),
      ((List.range profile_vertices.length).foldl (fun acc2 (i : Nat) =>
        let next : Nat := (i + 1) % profile_vertices.length
        (acc2.addEdge (1 + (step : Int) * (profile_vertices.length : Int) + (i : Int))
          (1 + (step : Int) * (profile_vertices.length : Int) + (i : Int))
          (1 + (step : Int) * (profile_vertices.length : Int) + (next : Int))).1) acc).vertices =
      acc.vertices :=
    fun acc step => foldl_vertices_eq _ _ acc (fun acc2 i => vertices_addEdge acc2 _ _ _)
  have h3 : ∀ (acc : ModelManager) (i : Nat),
      ((List.range 4).foldl (fun acc2 (step : Nat) =>
        (acc2.addEdge
          (1 + (5 * profile_vertices.length : Int) + (i : Int) * ((4 : Nat) : Int) + (step : Int))
          (1 + (step : Int) * (profile_vertices.length : Int) + (i : Int))
          (1 + ((step : Int) + 1) * (profile_vertices.length : Int) + (i : Int))).1) acc).vertices =
      acc.vertices :=
    fun acc i => foldl_vertices_eq _ _ acc (fun acc2 step => vertices_addEdge acc2 _ _ _)
  have h5 : ∀ (acc : ModelManager) (step : Nat),
      ((List.range profile_vertices.length).foldl (fun acc2 (i : Nat) =>
        let next : Nat := (i + 1) % profile_vertices.length
        let base : Int := (step : Int) * (profile_vertices.length : Int) + 1
        let next_base : Int := ((step : Int) + 1) * (profile_vertices.length : Int) + 1
        let side_edges : List Int :=
          [base + (i : Int), base + (next : Int),
           next_base + (next : Int), next_base + (i : Int)]
        (acc2.addFace (2 + (step : Int) * (profile_vertices.length : Int) + (i : Int))
          side_edges).1) acc).vertices = acc.vertices :=
    fun acc step => foldl_vertices_eq _ _ acc (fun acc2 i => vertices_addFace acc2 _ _)
  rw [foldl_vertices_eq _ _ _ h5, vertices_addFace, foldl_vertices_eq _ _ _ h3,
    foldl_vertices_eq _ _ _ h2]

/-- The ids of the 5 vertex rings of `revolve` are pairwise distinct. -/
theorem revolveVertexInstrs_nodup (cosF sinF : ℚ → ℚ) (profile_vertices : List Point3D)
    (step_angle : ℚ) :
    ((revolveVertexInstrs cosF sinF profile_vertices step_angle).map Prod.fst).Nodup := by
  unfold revolveVertexInstrs
  rw [List.map_flatten, List.nodup_flatten]
  constructor
  · intro l hl
    rw [List.map_map] at hl
    simp only [List.mem_map, List.mem_range] at hl
    obtain ⟨step, hstep, rfl⟩ := hl
    show (List.map Prod.fst (revolveRingInstrs cosF sinF profile_vertices step_angle step)).Nodup
    unfold revolveRingInstrs
    rw [List.map_map]
    exact @nodup_range_map_add
      (1 + (step : Int) * (profile_vertices.length : Int)) profile_vertices.length
  · rw [List.map_map, List.pairwise_map]
    refine List.Pairwise.imp ?_ (List.pairwise_lt_range (4 + 1))
    intro s t hst
    intro x hx hy
    simp only [Function.comp, revolveRingInstrs, List.map_map, List.mem_map,
      List.mem_range] at hx hy
    obtain ⟨i, hi, hxi⟩ := hx
    obtain ⟨j, hj, hyj⟩ := hy
    have hi' : (i : Int) < (profile_vertices.length : Int) := by exact_mod_cast hi
    have hj' : (j : Int) < (profile_vertices.length : Int) := by exact_mod_cast hj
    have hst' : ((s : Int) + 1) ≤ (t : Int) := by exact_mod_cast Nat.succ_le_of_lt hst
    have hcast : ((s : Int) + 1) * (profile_vertices.length : Int) ≤
        (t : Int) * (profile_vertices.length : Int) :=
      mul_le_mul_of_nonneg_right hst' (by positivity)
    have hexp : ((s : Int) + 1) * (profile_vertices.length : Int) =
        (s : Int) * (profile_vertices.length : Int) + (profile_vertices.length : Int) := by
      ring
    linarith [hxi, hyj]

/-- Claim C5: the `axis_point` and `axis_direction` arguments of `revolve`
have zero observable effect (identical stores and return values), and on an
empty store the vertices produced are exactly 5 rings of n rotated profile
copies, ids assigned ring by ring — 5n vertices in total. -/
theorem claim_C5_revolve_rings_and_axis_independence (cosF sinF : ℚ → ℚ)
    (profile_vertices : List Point3D) (a1 a2 : Point3D) (d1 d2 : ℚ × ℚ × ℚ) (angle : ℚ)
    (h : profile_vertices ≠ []) :
    (∀ m : ModelManager,
      GeometryAlgorithm.revolve cosF sinF m profile_vertices a1 d1 angle =
        GeometryAlgorithm.revolve cosF sinF m profile_vertices a2 d2 angle) ∧
    (GeometryAlgorithm.revolve cosF sinF ModelManager.empty profile_vertices
      a1 d1 angle).2 = true ∧
    (GeometryAlgorithm.revolve cosF sinF ModelManager.empty profile_vertices
        a1 d1 angle).1.vertices =
      ((List.range 5).map (fun (step : Nat) =>
        (List.range profile_vertices.length).map (fun (i : Nat) =>
          let v := profile_vertices.getD i default
          let rotated := GeometryAlgorithm.rotateZ cosF sinF v (angle / 4 * (step : ℚ))
          (⟨1 + (step : Int) * (profile_vertices.length : Int) + (i : Int),
            rotated.x, rotated.y, rotated.z⟩ : Point3D)))).flatten ∧
    (GeometryAlgorithm.revolve cosF sinF ModelManager.empty profile_vertices
        a1 d1 angle).1.vertices.length = 5 * profile_vertices.length := by
  have hne : profile_vertices.isEmpty = false := by
    cases profile_vertices with
    | nil => exact absurd rfl h
    | cons a t => rfl
  have heq := revolve_as_batches cosF sinF ModelManager.empty profile_vertices a1 d1 angle hne
  have h1 : (GeometryAlgorithm.revolve cosF sinF ModelManager.empty profile_vertices
        a1 d1 angle).1 =
      revolveRestStages profile_vertices
        (addVertexList ModelManager.empty (revolveVertexInstrs cosF sinF profile_vertices
          (angle / ((4 : Nat) : ℚ)))) := congrArg Prod.fst heq
  have h2 : (GeometryAlgorithm.revolve cosF sinF ModelManager.empty profile_vertices
      a1 d1 angle).2 = true := congrArg Prod.snd heq
  have hverts : (GeometryAlgorithm.revolve cosF sinF ModelManager.empty profile_vertices
        a1 d1 angle).1.vertices =
      ((List.range 5).map (fun (step : Nat) =>
        (List.range profile_vertices.length).map (fun (i : Nat) =>
          let v := profile_vertices.getD i default
          let rotated := GeometryAlgorithm.rotateZ cosF sinF v (angle / 4 * (step : ℚ))
          (⟨1 + (step : Int) * (profile_vertices.length : Int) + (i : Int),
            rotated.x, rotated.y, rotated.z⟩ : Point3D)))).flatten := by
    rw [h1, revolveRestStages_vertices]
    obtain ⟨hv, _, _, _, _, _⟩ := addVertexList_spec
      (revolveVertexInstrs cosF sinF profile_vertices (angle / ((4 : Nat) : ℚ)))
      ModelManager.empty (fun p _ => rfl)
      (revolveVertexInstrs_nodup cosF sinF profile_vertices (angle / ((4 : Nat) : ℚ)))
    rw [hv]
    simp only [ModelManager.empty, List.nil_append]
    unfold revolveVertexInstrs revolveRingInstrs
    rw [List.map_flatten, List.map_map]
    simp only [Function.comp_def, List.map_map]
    rfl
  refine ⟨fun m => rfl, h2, hverts, ?_⟩
  rw [hverts]
  have hr5 : List.range 5 = [0, 1, 2, 3, 4] := rfl
  rw [hr5]
  simp only [List.map_cons, List.map_nil, List.flatten_cons, List.flatten_nil,
    List.length_append, List.length_map, List.length_range, List.length_nil]
  omega

/-- Claim C5 witness: one-point profile revolved by angle 2 about two
completely different axis arguments — identical stores, 5 rings of one
vertex each. -/
theorem claim_C5_witness :
    (∀ m : ModelManager,
      GeometryAlgorithm.revolve (fun _ => 1) (fun _ => 0) m [⟨1, 1, 2, 0⟩]
          ⟨0, 0, 0, 0⟩ (0, 0, 1) 2 =
        GeometryAlgorithm.revolve (fun _ => 1) (fun _ => 0) m [⟨1, 1, 2, 0⟩]
          ⟨9, 5, 5, 5⟩ (7, 8, 9) 2) ∧
    (GeometryAlgorithm.revolve (fun _ => 1) (fun _ => 0) ModelManager.empty [⟨1, 1, 2, 0⟩]
      ⟨0, 0, 0, 0⟩ (0, 0, 1) 2).2 = true ∧
    (GeometryAlgorithm.revolve (fun _ => 1) (fun _ => 0) ModelManager.empty [⟨1, 1, 2, 0⟩]
        ⟨0, 0, 0, 0⟩ (0, 0, 1) 2).1.vertices =
      ((List.range 5).map (fun (step : Nat) =>
        (List.range ([(⟨1, 1, 2, 0⟩ : Point3D)].length)).map (fun (i : Nat) =>
          let v := [(⟨1, 1, 2, 0⟩ : Point3D)].getD i default
          let rotated := GeometryAlgorithm.rotateZ (fun _ => 1) (fun _ => 0) v
            (2 / 4 * (step : ℚ))
          (⟨1 + (step : Int) * (([(⟨1, 1, 2, 0⟩ : Point3D)].length : Int)) + (i : Int),
            rotated.x, rotated.y, rotated.z⟩ : Point3D)))).flatten ∧
    (GeometryAlgorithm.revolve (fun _ => 1) (fun _ => 0) ModelManager.empty [⟨1, 1, 2, 0⟩]
        ⟨0, 0, 0, 0⟩ (0, 0, 1) 2).1.vertices.length = 5 * [(⟨1, 1, 2, 0⟩ : Point3D)].length :=
  claim_C5_revolve_rings_and_axis_independence (fun _ => 1) (fun _ => 0) [⟨1, 1, 2, 0⟩]
    ⟨0, 0, 0, 0⟩ ⟨9, 5, 5, 5⟩ (0, 0, 1) (7, 8, 9) 2 (by decide)
